import Mathlib

/-!
# Verification of the drawing-component editing-state engine

This file gives a shallow embedding, in Lean 4, of the editing-state engine of
the drawing component (`drawing.component.ts`): the undo/redo history model
over the `actions` / `redoActions` stacks and the `images` overlay list, the
overlay transform operations (delete, duplicate, resize, rotate, flip), the
path smoother `createSmoothPath`, pointer-capture coordinate normalisation,
the snapping engine `getSnappedEndPoint`, and the handle hit-testing
predicates.

Modelling conventions:
* Numbers are embedded as exact rationals (`ℚ`); the snapping engine and the
  rotated hit-tests, which use the transcendental functions `Math.atan2`,
  `Math.cos` and `Math.sin`, are embedded over the reals (`ℝ`).
* JavaScript arrays used as stacks (`actions`, `redoActions`) are embedded as
  lists whose HEAD is the top of the stack (the most recently `push`ed
  element); `push` is cons and `pop` takes the head.  The `images` array,
  whose left-to-right order is the z-order, keeps its natural order: the
  source's `images.push` appends on the right.
* `ImageElement` objects are mutated in place and aliased by the command
  records, so overlays are given stable numeric identities: the component
  state carries a `store : Nat → ImageData` assigning current field values to
  each identity, and lists/commands hold identities.  `Array.prototype.indexOf`
  followed by a guarded `splice(index, 1)` is exactly `List.erase` (remove the
  first occurrence, no-op when absent).
* `Object.assign(image, partial)` is `objectAssign` over an options record.
-/

namespace DrawingApp

/-- A point with unit (viewport-relative) coordinates, as captured by
`capturePoint` / `getCanvasCoordinates`. -/
structure Point where
  x : ℚ
  y : ℚ
deriving DecidableEq, Repr

/-- The mutable numeric fields of the source's `ImageElement`
(`{img, x, y, width, height, rotation}`); the bitmap handle `img` carries no
state relevant to the engine and is represented by the overlay's identity. -/
structure ImageData where
  x : ℚ
  y : ℚ
  width : ℚ
  height : ℚ
  rotation : ℚ
deriving DecidableEq, Repr

/-- A `Partial<ImageElement>` snapshot: each field is optionally present.
Used as the `oldState` / `newState` payloads of transform actions. -/
structure PartialImage where
  x? : Option ℚ := none
  y? : Option ℚ := none
  width? : Option ℚ := none
  height? : Option ℚ := none
  rotation? : Option ℚ := none
deriving DecidableEq, Repr

/-- `Object.assign(image, p)`: fields present in `p` overwrite those of `d`. -/
def objectAssign (d : ImageData) (p : PartialImage) : ImageData :=
  { x := p.x?.getD d.x
    y := p.y?.getD d.y
    width := p.width?.getD d.width
    height := p.height?.getD d.height
    rotation := p.rotation?.getD d.rotation }

/-- The source's `DrawAction` record (`type: 'path' | 'image' | 'deleteImage' |
'addImage' | 'moveImage' | 'resizeImage' | 'rotateImage'` with optional
payload fields), embedded as a tagged union with the payload each `type`
actually uses.  `image` payloads are overlay identities. -/
inductive DrawAction where
  | path (pts : List Point) (color : String) (lineWidth : ℚ) (isEraser : Bool)
  | imageAct (img : Nat)
  | addImage (img : Nat)
  | deleteImage (img : Nat)
  | moveImage (img : Nat) (oldState newState : PartialImage)
  | resizeImage (img : Nat) (oldState newState : PartialImage)
  | rotateImage (img : Nat) (oldState newState : PartialImage)
deriving DecidableEq, Repr

/-- The component state touched by the editing-state engine.  Rendering-only
state (colors of the palette, background type, the live preview segment,
drag/resize/rotate mode booleans) is omitted: no claim reads it. -/
structure DrawState where
  /-- `images`: the active overlay list, in z-order (left = bottom). -/
  images : List Nat
  /-- Current field values of every overlay identity (live objects). -/
  store : Nat → ImageData
  /-- Next fresh overlay identity (models allocation of a new object). -/
  nextId : Nat
  /-- `actions`: the undo stack; head = most recently pushed. -/
  actions : List DrawAction
  /-- `redoActions`: the redo stack; head = most recently pushed. -/
  redoActions : List DrawAction
  selectedImage : Option Nat
  isDrawing : Bool
  currentPath : List Point
  currentColor : String
  backgroundColor : String
  brushSize : ℚ
  isEraser : Bool
  lineStartPoint : Option Point
  isLineDrawingMode : Bool
  /-- `canvas.width` in device pixels. -/
  canvasWidth : ℚ
  /-- `canvas.height` in device pixels. -/
  canvasHeight : ℚ

/-- Point update of the overlay store at one identity. -/
def updateStore (st : Nat → ImageData) (i : Nat) (d : ImageData) : Nat → ImageData :=
  fun j => if j = i then d else st j

/-- The state change performed by the `switch (action.type)` of `undo()`
(after the stack moves): `path` and the unused `image` kind only trigger a
redraw; `addImage` removes the overlay (`indexOf` + guarded `splice`);
`deleteImage` re-`push`es the retained overlay; the three transform kinds
`Object.assign` the `oldState` snapshot back onto the overlay. -/
def undoEffect (s : DrawState) (a : DrawAction) : DrawState :=
  match a with
  | .path .. => s
  | .imageAct _ => s
  | .addImage i => { s with images := s.images.erase i }
  | .deleteImage i => { s with images := s.images ++ [i] }
  | .moveImage i old _ => { s with store := updateStore s.store i (objectAssign (s.store i) old) }
  | .resizeImage i old _ => { s with store := updateStore s.store i (objectAssign (s.store i) old) }
  | .rotateImage i old _ => { s with store := updateStore s.store i (objectAssign (s.store i) old) }

/-- `undo()`: no-op when `actions` is empty; otherwise pop the top action,
push it onto `redoActions`, and apply the inverse effect. -/
def undo (s : DrawState) : DrawState :=
  match s.actions with
  | [] => s
  | action :: rest =>
      undoEffect { s with actions := rest, redoActions := action :: s.redoActions } action

/-- The state change performed by the `switch (action.type)` of `redo()`:
`addImage` re-`push`es the overlay; `deleteImage` removes it (`indexOf` +
guarded `splice`); the transform kinds `Object.assign` the `newState`
snapshot onto the overlay. -/
def redoEffect (s : DrawState) (a : DrawAction) : DrawState :=
  match a with
  | .path .. => s
  | .imageAct _ => s
  | .addImage i => { s with images := s.images ++ [i] }
  | .deleteImage i => { s with images := s.images.erase i }
  | .moveImage i _ new => { s with store := updateStore s.store i (objectAssign (s.store i) new) }
  | .resizeImage i _ new => { s with store := updateStore s.store i (objectAssign (s.store i) new) }
  | .rotateImage i _ new => { s with store := updateStore s.store i (objectAssign (s.store i) new) }

/-- `redo()`: no-op when `redoActions` is empty; otherwise pop its top,
push it onto `actions`, and reapply the forward effect. -/
def redo (s : DrawState) : DrawState :=
  match s.redoActions with
  | [] => s
  | action :: rest =>
      redoEffect { s with redoActions := rest, actions := action :: s.actions } action

/-- `deleteImage(image)` (the user operation): if the overlay is present,
splice it out, push a `deleteImage` action, clear the redo stack and the
selection. -/
def deleteImageOp (s : DrawState) (i : Nat) : DrawState :=
  if i ∈ s.images then
    { s with images := s.images.erase i
             actions := DrawAction.deleteImage i :: s.actions
             redoActions := []
             selectedImage := none }
  else s

/-- `duplicateImage()`: when an overlay is selected, clone its fields with a
`(+20, +20)` pixel offset into a fresh object, append it to `images`, push an
`addImage` action and clear the redo stack. -/
def duplicateImage (s : DrawState) : DrawState :=
  match s.selectedImage with
  | none => s
  | some i =>
      let d := s.store i
      let newD : ImageData := { d with x := d.x + 20, y := d.y + 20 }
      { s with store := updateStore s.store s.nextId newD
               nextId := s.nextId + 1
               images := s.images ++ [s.nextId]
               actions := DrawAction.addImage s.nextId :: s.actions
               redoActions := [] }

/-- `resizeSelectedImage(x, y)`: from the pointer's unit x-coordinate compute
`newWidth = x * canvas.width - image.x` and `newHeight = newWidth /
(width / height)`; commit (mutate, push a `resizeImage` action whose
snapshots hold only `width` and `height`, clear redo) only when both exceed
20 device pixels.  The pointer's `y` is unused, as in the source. -/
def resizeSelectedImage (s : DrawState) (x _y : ℚ) : DrawState :=
  match s.selectedImage with
  | none => s
  | some i =>
      let d := s.store i
      let oldState : PartialImage := { width? := some d.width, height? := some d.height }
      let newWidth := x * s.canvasWidth - d.x
      let aspectRatio := d.width / d.height
      let newHeight := newWidth / aspectRatio
      if 20 < newWidth ∧ 20 < newHeight then
        { s with store := updateStore s.store i { d with width := newWidth, height := newHeight }
                 actions := DrawAction.resizeImage i oldState
                    { width? := some newWidth, height? := some newHeight } :: s.actions
                 redoActions := [] }
      else s

/-- `rotateSelectedImage(x, y)`: sets the selected overlay's rotation and
pushes a `rotateImage` action whose snapshots hold only `rotation`.  The
source computes the new angle as `Math.atan2(pointer - center) * 180 / π`;
that transcendental value is taken here as the `newRotation` argument, the
remaining state change being embedded verbatim. -/
def rotateSelectedImage (s : DrawState) (newRotation : ℚ) : DrawState :=
  match s.selectedImage with
  | none => s
  | some i =>
      let d := s.store i
      { s with store := updateStore s.store i { d with rotation := newRotation }
               actions := DrawAction.rotateImage i { rotation? := some d.rotation }
                  { rotation? := some newRotation } :: s.actions
               redoActions := [] }

/-- `flipImage(horizontal)`: negates the selected overlay's width (or height)
in place and pushes a `resizeImage` action whose snapshots hold only `width`
and `height`; clears the redo stack. -/
def flipImage (s : DrawState) (horizontal : Bool) : DrawState :=
  match s.selectedImage with
  | none => s
  | some i =>
      let d := s.store i
      let oldState : PartialImage := { width? := some d.width, height? := some d.height }
      let newD : ImageData :=
        if horizontal then { d with width := -d.width } else { d with height := -d.height }
      { s with store := updateStore s.store i newD
               actions := DrawAction.resizeImage i oldState
                  { width? := some newD.width, height? := some newD.height } :: s.actions
               redoActions := [] }

/-- The image-load completion callback of `handleImageUpload(file)` (shared by
drop, paste and file-select): construct `{img, x: 0, y: 0, width, height,
rotation: 0}` and `push` it into `images`.  Nothing is pushed onto the
`actions` stack and `redoActions` is untouched. -/
def handleImageUpload (s : DrawState) (imgWidth imgHeight : ℚ) : DrawState :=
  { s with store := updateStore s.store s.nextId
             { x := 0, y := 0, width := imgWidth, height := imgHeight, rotation := 0 }
           nextId := s.nextId + 1
           images := s.images ++ [s.nextId] }

/-- `clearCanvas()`: first `forEach` over `images` pushing one `deleteImage`
action per overlay onto `actions`; then reassign `images`, `actions` and
`redoActions` to fresh empty arrays and drop the selection.  The
reassignment of `actions` discards the actions just pushed. -/
def clearCanvas (s : DrawState) : DrawState :=
  let s1 := { s with
    actions := s.images.foldl (fun acc i => DrawAction.deleteImage i :: acc) s.actions }
  { s1 with images := [], actions := [], redoActions := [], selectedImage := none }

/-- The bounding client rect of the canvas, an external DOM quantity read by
`capturePoint` and `getCanvasCoordinates`. -/
structure DOMRect where
  left : ℚ
  top : ℚ
  width : ℚ
  height : ℚ
deriving DecidableEq, Repr

/-- `getCanvasCoordinates(clientX, clientY)`: divide the rect-relative pointer
offsets by the rect's width and height.  There is no guard against
`rect.width = 0` or `rect.height = 0`; in ℚ a division by zero yields `0`
where IEEE arithmetic would yield `±Infinity` or `NaN`. -/
def getCanvasCoordinates (rect : DOMRect) (clientX clientY : ℚ) : Point :=
  { x := (clientX - rect.left) / rect.width
    y := (clientY - rect.top) / rect.height }

/-- `capturePoint(clientX, clientY)`: return early only when the canvas
reference is missing (`hasCanvas = false`); otherwise push the normalised
point onto `currentPath` unconditionally — also when the rect has zero width
or height. -/
def capturePoint (s : DrawState) (hasCanvas : Bool) (rect : DOMRect)
    (clientX clientY : ℚ) : DrawState :=
  if hasCanvas then
    { s with currentPath := s.currentPath ++ [getCanvasCoordinates rect clientX clientY] }
  else s

/-- One sample of the quadratic Bezier used by `createSmoothPath`:
`(1-t)² · c1 + 2(1-t)t · p1 + t² · c2`, componentwise. -/
def quadBezier (c1 p1 c2 : Point) (t : ℚ) : Point :=
  { x := (1 - t) ^ 2 * c1.x + 2 * (1 - t) * t * p1.x + t ^ 2 * c2.x
    y := (1 - t) ^ 2 * c1.y + 2 * (1 - t) * t * p1.y + t ^ 2 * c2.y }

/-- The local control point `{x: a.x + (b.x - a.x) / 2, y: …}` used by
`createSmoothPath`: the midpoint of `a` and `b`, written as in the source. -/
def ctrlMid (a b : Point) : Point :=
  { x := a.x + (b.x - a.x) / 2, y := a.y + (b.y - a.y) / 2 }

/-- The samples produced for one interior point `p1` with neighbours `p0`,
`p2`: control points at the midpoints of `(p0,p1)` and `(p1,p2)`, then the
loop `for (t = 0; t <= 1; t += 0.1)` — eleven samples at `t = k/10`,
`k = 0, …, 10` (in exact arithmetic the loop hits both ends exactly). -/
def segmentSamples (p0 p1 p2 : Point) : List Point :=
  (List.range 11).map
    (fun (k : Nat) => quadBezier (ctrlMid p0 p1) p1 (ctrlMid p1 p2) ((k : ℚ) / 10))

/-- The interior loop of `createSmoothPath` (`for (i = 1; i < length - 1;
i++)` over the sliding window `points[i-1], points[i], points[i+1]`),
written as a sliding-window recursion over the list. -/
def smoothSegments : List Point → List Point
  | p0 :: p1 :: p2 :: rest => segmentSamples p0 p1 p2 ++ smoothSegments (p1 :: p2 :: rest)
  | _ => []

/-- `createSmoothPath(points)`: the input unchanged when it has fewer than 3
points; otherwise `points[0]`, then the per-interior-point Bezier samples,
then `points[points.length - 1]`. -/
def createSmoothPath (points : List Point) : List Point :=
  if points.length < 3 then points
  else
    match points with
    | [] => []
    | p :: _ => p :: (smoothSegments points ++ [points.getLastD p])

/-- `stopDrawing()`: when a freehand stroke is in progress, end it; when the
captured path has more than one point, push a `path` action holding the
smoothed path and clear the redo stack; always reset `currentPath`. -/
def stopDrawing (s : DrawState) : DrawState :=
  if s.isDrawing then
    let s1 := { s with isDrawing := false }
    let s2 :=
      if 1 < s1.currentPath.length then
        { s1 with
          actions := DrawAction.path (createSmoothPath s1.currentPath)
              (if s1.isEraser then s1.backgroundColor else s1.currentColor)
              s1.brushSize s1.isEraser :: s1.actions
          redoActions := [] }
      else s1
    { s2 with currentPath := [] }
  else s

/-- The line-drawing branch of `onMouseUp` (taken when `isLineDrawingMode`
holds and `lineStartPoint` is set): push a `path` action holding the start
point and the snapped end point, then reset the line state.  `snappedEnd` is
`getSnappedEndPoint(lineStartPoint, pointer)`, computed by the snapping
engine (embedded over ℝ below); it enters here as data.  Note that, unlike
every other push site, this branch does NOT clear `redoActions`. -/
def onMouseUpLine (s : DrawState) (snappedEnd : Point) : DrawState :=
  match s.lineStartPoint with
  | none => s
  | some start =>
      if s.isLineDrawingMode then
        { s with
          actions := DrawAction.path [start, snappedEnd] s.currentColor s.brushSize false
              :: s.actions
          lineStartPoint := none
          isLineDrawingMode := false }
      else s

/-- The common shape of the seven committing sites (`stopDrawing`,
`onMouseUp`'s line branch, `deleteImage`, `duplicateImage`,
`resizeSelectedImage`, `rotateSelectedImage`, `flipImage`): perform the
forward state change of `redo`'s switch for the pushed action, `push` the
action, and reset `redoActions` (the line branch omits the reset — see the
C3 theorems). -/
def commitAction (s : DrawState) (a : DrawAction) : DrawState :=
  { redoEffect s a with actions := a :: s.actions, redoActions := [] }

/-- Left-to-right sequence of commits. -/
def commitList (s : DrawState) : List DrawAction → DrawState
  | [] => s
  | a :: as_ => commitList (commitAction s a) as_

/-- `n` successive calls of `undo()`. -/
def undoN : Nat → DrawState → DrawState
  | 0, s => s
  | n + 1, s => undoN n (undo s)

/-- A commit the UI can actually issue: `deleteImage` is only reachable for
an overlay currently in the active list (the `indexOf` guard). -/
def validCommit (s : DrawState) (a : DrawAction) : Bool :=
  match a with
  | .deleteImage i => i ∈ s.images
  | _ => true

/-- Each commit of the sequence is issuable in the state it executes in. -/
def validSeq (s : DrawState) : List DrawAction → Bool
  | [] => true
  | a :: as_ => validCommit s a && validSeq (commitAction s a) as_

/-! ## The snapping engine and the handle hit-tests, over the reals

`getSnappedEndPoint` decides with `Math.atan2`, and the three handle
predicates rotate the pointer with `Math.cos` / `Math.sin`; these are
embedded over `ℝ` with Mathlib's exact transcendental functions. -/

/-- A point with real coordinates, for the trigonometric components. -/
structure RPoint where
  x : ℝ
  y : ℝ

/-- `Math.atan2(y, x)`: the angle of the vector `(x, y)` in `(-π, π]`. -/
noncomputable def atan2 (y x : ℝ) : ℝ :=
  if 0 < x then Real.arctan (y / x)
  else if x < 0 then
    (if 0 ≤ y then Real.arctan (y / x) + Real.pi else Real.arctan (y / x) - Real.pi)
  else
    (if 0 < y then Real.pi / 2 else if y < 0 then -(Real.pi / 2) else 0)

/-- The JavaScript `% 360` of the source's angle normalisation.  The value it
is applied to, `atan2 · * 180 / π + 360`, lies in `(180, 540]`, where the
truncating JavaScript remainder agrees with the flooring remainder used
here. -/
noncomputable def mod360 (a : ℝ) : ℝ :=
  a - 360 * (⌊a / 360⌋ : ℤ)

/-- `getSnappedEndPoint(start, end)`: compute the segment's angle in degrees
normalised to `[0, 360)`; when within 5° of 0°/180° and `|dy| < 0.02`, force
`y` to the start's; otherwise when within 2° of 90°/270° and `|dx| < 0.02`,
force `x` to the start's; otherwise return the candidate unchanged.  (In the
source each angular test guards a nested distance test whose failure falls
through to the next test; the conjunctions below are equivalent.) -/
noncomputable def getSnappedEndPoint (start e : RPoint) : RPoint :=
  let dx := e.x - start.x
  let dy := e.y - start.y
  let angle := mod360 (atan2 dy dx * 180 / Real.pi + 360)
  if (angle < 5 ∨ |angle - 180| < 5) ∧ |dy| < 0.02 then
    { x := e.x, y := start.y }
  else if (|angle - 90| < 2 ∨ |angle - 270| < 2) ∧ |dx| < 0.02 then
    { x := start.x, y := e.y }
  else e

/-- An `ImageElement`'s numeric fields over ℝ, for the hit-test predicates. -/
structure RImage where
  x : ℝ
  y : ℝ
  width : ℝ
  height : ℝ
  rotation : ℝ

/-- The inverse rotation applied to the unit-coordinate pointer by every
hit-test: rotate `(px, py)` about `(cx, cy)` by `-rotation` degrees. -/
noncomputable def rotatedCoords (cx cy rotation px py : ℝ) : ℝ × ℝ :=
  (Real.cos (-rotation * Real.pi / 180) * (px - cx) -
      Real.sin (-rotation * Real.pi / 180) * (py - cy) + cx,
   Real.sin (-rotation * Real.pi / 180) * (px - cx) +
      Real.cos (-rotation * Real.pi / 180) * (py - cy) + cy)

/-- `isResizeHandle(x, y, image)`: with `handleSize = 16`, the inversely
rotated pointer must lie within `±handleSize/canvas.width` of the overlay's
bottom-right corner horizontally and `±handleSize/canvas.height`
vertically. -/
noncomputable def isResizeHandle (x y : ℝ) (image : RImage) (cw ch : ℝ) : Prop :=
  let handleSize : ℝ := 16
  let imageRight := (image.x + image.width) / cw
  let imageBottom := (image.y + image.height) / ch
  let centerX := (image.x + image.width / 2) / cw
  let centerY := (image.y + image.height / 2) / ch
  let r := rotatedCoords centerX centerY image.rotation x y
  imageRight - handleSize / cw ≤ r.1 ∧ r.1 ≤ imageRight + handleSize / cw ∧
    imageBottom - handleSize / ch ≤ r.2 ∧ r.2 ≤ imageBottom + handleSize / ch

/-- `isRotateHandle(x, y, image)`: with `handleSize = 30`, the inversely
rotated pointer must lie within `±handleSize/canvas.width` of the overlay's
top-right corner horizontally and `±handleSize/canvas.height` vertically. -/
noncomputable def isRotateHandle (x y : ℝ) (image : RImage) (cw ch : ℝ) : Prop :=
  let handleSize : ℝ := 30
  let imageRight := (image.x + image.width) / cw
  let imageTop := image.y / ch
  let centerX := (image.x + image.width / 2) / cw
  let centerY := (image.y + image.height / 2) / ch
  let r := rotatedCoords centerX centerY image.rotation x y
  imageRight - handleSize / cw ≤ r.1 ∧ r.1 ≤ imageRight + handleSize / cw ∧
    imageTop - handleSize / ch ≤ r.2 ∧ r.2 ≤ imageTop + handleSize / ch

/-- `isDeleteHandle(x, y, image)`: with `handleSize = 16`, the inversely
rotated pointer must lie within `±handleSize/canvas.width` of the overlay's
top-left corner horizontally and `±handleSize/canvas.height` vertically. -/
noncomputable def isDeleteHandle (x y : ℝ) (image : RImage) (cw ch : ℝ) : Prop :=
  let handleSize : ℝ := 16
  let imageLeft := image.x / cw
  let imageTop := image.y / ch
  let centerX := (image.x + image.width / 2) / cw
  let centerY := (image.y + image.height / 2) / ch
  let r := rotatedCoords centerX centerY image.rotation x y
  imageLeft - handleSize / cw ≤ r.1 ∧ r.1 ≤ imageLeft + handleSize / cw ∧
    imageTop - handleSize / ch ≤ r.2 ∧ r.2 ≤ imageTop + handleSize / ch

/-! ## Concrete states used by counterexamples and witnesses -/

/-- A quiescent component state: no overlays, empty stacks, a 100×100 canvas,
and the component's initial field values. -/
def baseState : DrawState where
  images := []
  store := fun _ => { x := 0, y := 0, width := 0, height := 0, rotation := 0 }
  nextId := 0
  actions := []
  redoActions := []
  selectedImage := none
  isDrawing := false
  currentPath := []
  currentColor := "#000000"
  backgroundColor := "#FFFFFF"
  brushSize := 2
  isEraser := false
  lineStartPoint := none
  isLineDrawingMode := false
  canvasWidth := 100
  canvasHeight := 100

/-! ## C1: clear-canvas followed by a single undo -/

/-- A state with two overlays present. -/
def twoOverlayState : DrawState :=
  { baseState with images := [0, 1], nextId := 2 }

/-- C1, counterexample: on a state holding overlays `0` and `1`,
`clearCanvas()` followed by a single `undo()` leaves the active overlay list
empty — it does not restore one of the previously-present overlays, because
`clearCanvas` reassigns `actions` to `[]` after (and thereby discards) the
per-overlay `deleteImage` pushes, so the `undo` finds an empty stack. -/
theorem clearCanvas_undo_restores_nothing_cex :
    twoOverlayState.images = [0, 1] ∧
      (undo (clearCanvas twoOverlayState)).images = [] :=
  ⟨rfl, rfl⟩

/-- C1, amended: `clearCanvas` empties the overlay list and both history
stacks (the `deleteImage` actions its `forEach` pushes are discarded by the
immediately following reassignment of `actions`), so a single subsequent
`undo()` is a no-op and restores no overlay. -/
theorem clearCanvas_then_undo_noop (s : DrawState) :
    (clearCanvas s).images = [] ∧ (clearCanvas s).actions = [] ∧
      (clearCanvas s).redoActions = [] ∧ undo (clearCanvas s) = clearCanvas s :=
  ⟨rfl, rfl, rfl, rfl⟩

/-! ## C4: overlay creation from drop / paste / file-select -/

/-- C4, counterexample: uploading a 30×40 image into the quiescent state
pushes the new overlay into the active list but pushes NO action onto the
undo stack — no `addImage` command records the creation. -/
theorem handleImageUpload_no_command_cex :
    (handleImageUpload baseState 30 40).images = [0] ∧
      (handleImageUpload baseState 30 40).actions = [] :=
  ⟨rfl, rfl⟩

/-- C4, amended: an overlay created from an image drop, paste or file-select
is pushed into the active overlay list with `x = y = rotation = 0` and the
bitmap's dimensions, but no `addImage` command is recorded: both history
stacks are left untouched (only `duplicateImage` records an `addImage`). -/
theorem handleImageUpload_pushes_overlay_only (s : DrawState) (w h : ℚ) :
    (handleImageUpload s w h).images = s.images ++ [s.nextId] ∧
      (handleImageUpload s w h).store s.nextId =
        { x := 0, y := 0, width := w, height := h, rotation := 0 } ∧
      (handleImageUpload s w h).actions = s.actions ∧
      (handleImageUpload s w h).redoActions = s.redoActions := by
  refine ⟨rfl, ?_, rfl, rfl⟩
  simp [handleImageUpload, updateStore]

/-! ## C6: resize rejection below the minimum size -/

/-- C6: when an overlay is selected and the resize computation yields a width
or height of at most 20 device pixels, `resizeSelectedImage` is a complete
no-op: every overlay field is unchanged and nothing is pushed onto the undo
stack (the state is returned unmodified). -/
theorem resizeSelectedImage_rejects_small (s : DrawState) (x y : ℚ) (i : Nat)
    (hsel : s.selectedImage = some i)
    (hrej : x * s.canvasWidth - (s.store i).x ≤ 20 ∨
      (x * s.canvasWidth - (s.store i).x) /
        ((s.store i).width / (s.store i).height) ≤ 20) :
    resizeSelectedImage s x y = s := by
  unfold resizeSelectedImage
  rw [hsel]
  have hcond : ¬ (20 < x * s.canvasWidth - (s.store i).x ∧
      20 < (x * s.canvasWidth - (s.store i).x) /
        ((s.store i).width / (s.store i).height)) := by
    rcases hrej with h | h
    · exact fun hc => absurd hc.1 (not_lt.mpr h)
    · exact fun hc => absurd hc.2 (not_lt.mpr h)
  simp only [if_neg hcond]

/-- A state with one selected 100×100 overlay at the origin. -/
def selectedOverlayState : DrawState :=
  { baseState with
    images := [0]
    nextId := 1
    selectedImage := some 0
    store := updateStore baseState.store 0
      { x := 0, y := 0, width := 100, height := 100, rotation := 0 } }

/-- C6, witness: on a 100-pixel-wide canvas with a selected 100×100 overlay
at the origin, a pointer at unit `x = 3/20` yields `newWidth = 15 ≤ 20`, and
the resize is rejected: the state is returned unchanged. -/
theorem resizeSelectedImage_rejects_small_witness :
    selectedOverlayState.selectedImage = some 0 ∧
      ((3 / 20 : ℚ) * selectedOverlayState.canvasWidth -
          (selectedOverlayState.store 0).x ≤ 20 ∨
        ((3 / 20 : ℚ) * selectedOverlayState.canvasWidth -
            (selectedOverlayState.store 0).x) /
          ((selectedOverlayState.store 0).width /
            (selectedOverlayState.store 0).height) ≤ 20) ∧
      resizeSelectedImage selectedOverlayState (3 / 20) 0 = selectedOverlayState :=
  ⟨rfl, Or.inl (by norm_num [selectedOverlayState, baseState, updateStore]),
    resizeSelectedImage_rejects_small selectedOverlayState (3 / 20) 0 0 rfl
      (Or.inl (by norm_num [selectedOverlayState, baseState, updateStore]))⟩

/-! ## C10: resize / flip commands snapshot only width and height -/

/-- C10: a committed resize pushes a `resizeImage` action whose `oldState`
and `newState` snapshots carry only the `width` and `height` fields (all
other fields `none`), and a flip does the same; consequently undoing such a
command restores every overlay's stored fields exactly to their pre-command
values (in particular `x`, `y` and `rotation` are untouched, since the
command never changed them and the snapshot does not mention them), and
redoing it afterwards restores exactly the post-command fields. -/
theorem transform_snapshots_only_size (s : DrawState) (x y : ℚ) (b : Bool) (i : Nat)
    (hsel : s.selectedImage = some i)
    (hw : 20 < x * s.canvasWidth - (s.store i).x)
    (hh : 20 < (x * s.canvasWidth - (s.store i).x) /
      ((s.store i).width / (s.store i).height)) :
    ((resizeSelectedImage s x y).actions =
        DrawAction.resizeImage i
          { width? := some (s.store i).width, height? := some (s.store i).height }
          { width? := some (x * s.canvasWidth - (s.store i).x),
            height? := some ((x * s.canvasWidth - (s.store i).x) /
              ((s.store i).width / (s.store i).height)) } :: s.actions) ∧
      (∀ j, (undo (resizeSelectedImage s x y)).store j = s.store j) ∧
      (∀ j, (redo (undo (resizeSelectedImage s x y))).store j =
        (resizeSelectedImage s x y).store j) ∧
      ((flipImage s b).actions =
        DrawAction.resizeImage i
          { width? := some (s.store i).width, height? := some (s.store i).height }
          { width? := some (if b then -(s.store i).width else (s.store i).width),
            height? := some (if b then (s.store i).height else -(s.store i).height) }
          :: s.actions) ∧
      (∀ j, (undo (flipImage s b)).store j = s.store j) ∧
      (∀ j, (redo (undo (flipImage s b))).store j = (flipImage s b).store j) := by
  have hcond : 20 < x * s.canvasWidth - (s.store i).x ∧
      20 < (x * s.canvasWidth - (s.store i).x) /
        ((s.store i).width / (s.store i).height) := ⟨hw, hh⟩
  refine ⟨?_, ?_, ?_, ?_, ?_, ?_⟩
  · simp only [resizeSelectedImage, hsel]
    rw [if_pos hcond]
  · intro j
    simp only [resizeSelectedImage, hsel]
    rw [if_pos hcond]
    by_cases hj : j = i <;>
      simp [undo, undoEffect, updateStore, objectAssign, hj]
  · intro j
    simp only [resizeSelectedImage, hsel]
    rw [if_pos hcond]
    by_cases hj : j = i <;>
      simp [undo, undoEffect, redo, redoEffect, updateStore, objectAssign, hj]
  · cases b <;> simp [flipImage, hsel]
  · intro j
    cases b <;> (by_cases hj : j = i <;>
      simp [flipImage, hsel, undo, undoEffect, updateStore, objectAssign, hj])
  · intro j
    cases b <;> (by_cases hj : j = i <;>
      simp [flipImage, hsel, undo, undoEffect, redo, redoEffect, updateStore,
        objectAssign, hj])

/-- C10, witness: on the selected 100×100 overlay with the pointer at unit
`x = 1/2` (so `newWidth = newHeight = 50 > 20`), the commit goes through and
the snapshot/undo/redo facts hold concretely. -/
theorem transform_snapshots_only_size_witness :
    selectedOverlayState.selectedImage = some 0 ∧
      20 < (1 / 2 : ℚ) * selectedOverlayState.canvasWidth -
        (selectedOverlayState.store 0).x ∧
      20 < ((1 / 2 : ℚ) * selectedOverlayState.canvasWidth -
          (selectedOverlayState.store 0).x) /
        ((selectedOverlayState.store 0).width / (selectedOverlayState.store 0).height) ∧
      (((resizeSelectedImage selectedOverlayState (1 / 2) 0).actions =
          DrawAction.resizeImage 0
            { width? := some (selectedOverlayState.store 0).width,
              height? := some (selectedOverlayState.store 0).height }
            { width? := some ((1 / 2 : ℚ) * selectedOverlayState.canvasWidth -
                (selectedOverlayState.store 0).x),
              height? := some (((1 / 2 : ℚ) * selectedOverlayState.canvasWidth -
                  (selectedOverlayState.store 0).x) /
                ((selectedOverlayState.store 0).width /
                  (selectedOverlayState.store 0).height)) }
            :: selectedOverlayState.actions) ∧
        (∀ j, (undo (resizeSelectedImage selectedOverlayState (1 / 2) 0)).store j =
          selectedOverlayState.store j) ∧
        (∀ j, (redo (undo (resizeSelectedImage selectedOverlayState (1 / 2) 0))).store j =
          (resizeSelectedImage selectedOverlayState (1 / 2) 0).store j) ∧
        ((flipImage selectedOverlayState true).actions =
          DrawAction.resizeImage 0
            { width? := some (selectedOverlayState.store 0).width,
              height? := some (selectedOverlayState.store 0).height }
            { width? := some (if true then -(selectedOverlayState.store 0).width
                else (selectedOverlayState.store 0).width),
              height? := some (if true then (selectedOverlayState.store 0).height
                else -(selectedOverlayState.store 0).height) }
            :: selectedOverlayState.actions) ∧
        (∀ j, (undo (flipImage selectedOverlayState true)).store j =
          selectedOverlayState.store j) ∧
        (∀ j, (redo (undo (flipImage selectedOverlayState true))).store j =
          (flipImage selectedOverlayState true).store j)) :=
  ⟨rfl, by norm_num [selectedOverlayState, baseState, updateStore],
    by norm_num [selectedOverlayState, baseState, updateStore],
    transform_snapshots_only_size selectedOverlayState (1 / 2) 0 true 0 rfl
      (by norm_num [selectedOverlayState, baseState, updateStore])
      (by norm_num [selectedOverlayState, baseState, updateStore])⟩

/-! ## C2: N commits followed by N undos -/

/-- `undo` acts identically on two states agreeing on the undo stack, up to
permutation of the overlay list: the popped action is determined by the
stack, erasure and re-insertion respect permutations, and the transform
kinds do not touch the list. -/
theorem undo_respects_perm (s₁ s₂ : DrawState) (ha : s₁.actions = s₂.actions)
    (hi : List.Perm s₁.images s₂.images) :
    (undo s₁).actions = (undo s₂).actions ∧
      List.Perm (undo s₁).images (undo s₂).images := by
  rcases h : s₂.actions with _ | ⟨a, rest⟩
  · have hc : s₁.actions = [] := ha.trans h
    simp only [undo, hc, h]
    exact ⟨trivial, hi⟩
  · have hc : s₁.actions = a :: rest := ha.trans h
    simp only [undo, hc, h]
    cases a with
    | path pts color lineWidth isEraser => exact ⟨rfl, hi⟩
    | imageAct i => exact ⟨rfl, hi⟩
    | addImage i => exact ⟨rfl, hi.erase i⟩
    | deleteImage i => exact ⟨rfl, hi.append_right [i]⟩
    | moveImage i old new_ => exact ⟨rfl, hi⟩
    | resizeImage i old new_ => exact ⟨rfl, hi⟩
    | rotateImage i old new_ => exact ⟨rfl, hi⟩

/-- A single valid commit followed by `undo` restores the undo stack exactly
and the overlay list up to permutation. -/
theorem undo_commitAction (s : DrawState) (a : DrawAction)
    (hv : validCommit s a = true) :
    (undo (commitAction s a)).actions = s.actions ∧
      List.Perm (undo (commitAction s a)).images s.images := by
  cases a with
  | path pts color lineWidth isEraser =>
      exact ⟨rfl, List.Perm.refl _⟩
  | imageAct i => exact ⟨rfl, List.Perm.refl _⟩
  | addImage i =>
      refine ⟨rfl, ?_⟩
      show List.Perm ((s.images ++ [i]).erase i) s.images
      have h1 := (List.perm_append_singleton i s.images).erase i
      rwa [List.erase_cons_head] at h1
  | deleteImage i =>
      have hm : i ∈ s.images := by simpa [validCommit] using hv
      refine ⟨rfl, ?_⟩
      show List.Perm (s.images.erase i ++ [i]) s.images
      exact (List.perm_append_singleton i (s.images.erase i)).trans
        (List.perm_cons_erase hm).symm
  | moveImage i old new_ => exact ⟨rfl, List.Perm.refl _⟩
  | resizeImage i old new_ => exact ⟨rfl, List.Perm.refl _⟩
  | rotateImage i old new_ => exact ⟨rfl, List.Perm.refl _⟩

/-- Unfolding the last of `n + 1` undos. -/
theorem undoN_succ_eq (n : Nat) (s : DrawState) :
    undoN (n + 1) s = undo (undoN n s) := by
  induction n generalizing s with
  | zero => rfl
  | succ m ih =>
      show undoN (m + 1) (undo s) = undo (undoN (m + 1) s)
      rw [ih (undo s)]
      rfl

/-- C2, counterexample: the claim fails even for a single valid commit.  On
the state with overlays `[0, 1]`, committing `deleteImage 0` and undoing it
yields overlay list `[1, 0]` — the deleted overlay is re-`push`ed at the END
of the list, not back at its original index — and leaves the undone command
on the redo stack rather than restoring the empty pre-commit redo stack. -/
theorem commit_undo_not_exact_inverse_cex :
    validSeq twoOverlayState [DrawAction.deleteImage 0] = true ∧
      ¬ ((undoN 1 (commitList twoOverlayState [DrawAction.deleteImage 0])).images =
            twoOverlayState.images ∧
          (undoN 1 (commitList twoOverlayState [DrawAction.deleteImage 0])).redoActions =
            twoOverlayState.redoActions) := by
  refine ⟨rfl, fun h => ?_⟩
  have h1 : ([1, 0] : List Nat) = [0, 1] := h.1
  exact absurd h1 (by decide)

/-- C2, amended: for every starting state and every sequence of commits each
of which is issuable in the state it meets (`deleteImage` only deletes a
present overlay), N commits followed by N undos restore the undo stack
exactly and restore the active overlay list up to permutation (its order can
differ: an undone deletion re-appends at the end).  The redo stack is NOT
restored — it ends holding the undone commands (see the counterexample). -/
theorem commits_then_undos_restore (s : DrawState) (as_ : List DrawAction)
    (hv : validSeq s as_ = true) :
    (undoN as_.length (commitList s as_)).actions = s.actions ∧
      List.Perm (undoN as_.length (commitList s as_)).images s.images := by
  induction as_ generalizing s with
  | nil => exact ⟨rfl, List.Perm.refl _⟩
  | cons a rest ih =>
      have hv' : validCommit s a = true ∧ validSeq (commitAction s a) rest = true := by
        simpa [validSeq, Bool.and_eq_true] using hv
      have ihh := ih (commitAction s a) hv'.2
      have hstep : undoN (a :: rest).length (commitList s (a :: rest)) =
          undo (undoN rest.length (commitList (commitAction s a) rest)) := by
        show undoN (rest.length + 1) (commitList (commitAction s a) rest) = _
        exact undoN_succ_eq rest.length _
      rw [hstep]
      have hcong := undo_respects_perm
        (undoN rest.length (commitList (commitAction s a) rest))
        (commitAction s a) ihh.1 ihh.2
      have hbase := undo_commitAction s a hv'.1
      exact ⟨hcong.1.trans hbase.1, hcong.2.trans hbase.2⟩

/-- C2, witness: two valid commits (delete overlay `0`, then add a fresh
overlay `5`) followed by two undos restore the undo stack `[]` and a
permutation of the original overlay list `[0, 1]`. -/
theorem commits_then_undos_restore_witness :
    validSeq twoOverlayState [DrawAction.deleteImage 0, DrawAction.addImage 5] = true ∧
      (undoN 2 (commitList twoOverlayState
          [DrawAction.deleteImage 0, DrawAction.addImage 5])).actions =
        twoOverlayState.actions ∧
      List.Perm (undoN 2 (commitList twoOverlayState
          [DrawAction.deleteImage 0, DrawAction.addImage 5])).images
        twoOverlayState.images :=
  ⟨rfl,
    (commits_then_undos_restore twoOverlayState
      [DrawAction.deleteImage 0, DrawAction.addImage 5] rfl).1,
    (commits_then_undos_restore twoOverlayState
      [DrawAction.deleteImage 0, DrawAction.addImage 5] rfl).2⟩

/-! ## C3: commits and the redo stack -/

/-- A state in line-drawing mode with a pending start point and a non-empty
redo stack (as after an `undo` of a `deleteImage`). -/
def lineModeState : DrawState :=
  { baseState with
    redoActions := [DrawAction.deleteImage 0]
    lineStartPoint := some { x := 0, y := 0 }
    isLineDrawingMode := true }

/-- C3, counterexample: the line-mode stroke commit of `onMouseUp` pushes its
`path` action WITHOUT clearing `redoActions` (unlike every other commit
site), so the previously-undone command survives the commit, and a
subsequent `redo()` pops and re-commits it — the undone command is
resurrected. -/
theorem line_commit_keeps_redo_cex :
    (onMouseUpLine lineModeState { x := 1/2, y := 1/2 }).redoActions =
        [DrawAction.deleteImage 0] ∧
      (redo (onMouseUpLine lineModeState { x := 1/2, y := 1/2 })).actions =
        DrawAction.deleteImage 0 ::
          (onMouseUpLine lineModeState { x := 1/2, y := 1/2 }).actions :=
  ⟨rfl, rfl⟩

/-- C3, amended: every user-initiated commit that is not itself an undo/redo
clears the redo stack — EXCEPT the line-mode stroke commit, which pushes its
`path` action and leaves `redoActions` unchanged, so after
`undo(); lineCommit()` a `redo()` can still resurrect the undone command. -/
theorem commits_clear_redo_except_line (s : DrawState) (e : Point) (r x y : ℚ)
    (b : Bool) (i j : Nat) (p : Point)
    (hdraw : s.isDrawing = true) (hpath : 1 < s.currentPath.length)
    (hmem : i ∈ s.images) (hsel : s.selectedImage = some j)
    (hw : 20 < x * s.canvasWidth - (s.store j).x)
    (hh : 20 < (x * s.canvasWidth - (s.store j).x) /
      ((s.store j).width / (s.store j).height))
    (hls : s.lineStartPoint = some p) (hlm : s.isLineDrawingMode = true) :
    (stopDrawing s).redoActions = [] ∧
      (deleteImageOp s i).redoActions = [] ∧
      (duplicateImage s).redoActions = [] ∧
      (resizeSelectedImage s x y).redoActions = [] ∧
      (rotateSelectedImage s r).redoActions = [] ∧
      (flipImage s b).redoActions = [] ∧
      (onMouseUpLine s e).actions =
        DrawAction.path [p, e] s.currentColor s.brushSize false :: s.actions ∧
      (onMouseUpLine s e).redoActions = s.redoActions := by
  refine ⟨?_, ?_, ?_, ?_, ?_, ?_, ?_, ?_⟩
  · simp [stopDrawing, hdraw, hpath]
  · simp [deleteImageOp, hmem]
  · simp [duplicateImage, hsel]
  · simp only [resizeSelectedImage, hsel]
    rw [if_pos ⟨hw, hh⟩]
  · simp [rotateSelectedImage, hsel]
  · cases b <;> simp [flipImage, hsel]
  · simp [onMouseUpLine, hls, hlm]
  · simp [onMouseUpLine, hls, hlm]

/-- A state exercising every commit site at once: drawing in progress with a
two-point path, an overlay present and selected, line mode pending, and a
non-empty redo stack. -/
def allCommitsState : DrawState :=
  { baseState with
    images := [0]
    nextId := 1
    selectedImage := some 0
    store := updateStore baseState.store 0
      { x := 0, y := 0, width := 100, height := 100, rotation := 0 }
    isDrawing := true
    currentPath := [{ x := 0, y := 0 }, { x := 1, y := 1 }]
    redoActions := [DrawAction.deleteImage 5]
    lineStartPoint := some { x := 0, y := 0 }
    isLineDrawingMode := true }

/-- C3, witness: on `allCommitsState` every hypothesis holds concretely (the
resize pointer `x = 1/2` gives `newWidth = newHeight = 50 > 20`), so the
amended statement applies: the six ordinary commit sites clear the redo
stack and the line-mode commit preserves it. -/
theorem commits_clear_redo_except_line_witness :
    allCommitsState.isDrawing = true ∧ 1 < allCommitsState.currentPath.length ∧
      0 ∈ allCommitsState.images ∧ allCommitsState.selectedImage = some 0 ∧
      20 < (1/2 : ℚ) * allCommitsState.canvasWidth - (allCommitsState.store 0).x ∧
      20 < ((1/2 : ℚ) * allCommitsState.canvasWidth - (allCommitsState.store 0).x) /
        ((allCommitsState.store 0).width / (allCommitsState.store 0).height) ∧
      allCommitsState.lineStartPoint = some { x := 0, y := 0 } ∧
      allCommitsState.isLineDrawingMode = true ∧
      ((stopDrawing allCommitsState).redoActions = [] ∧
        (deleteImageOp allCommitsState 0).redoActions = [] ∧
        (duplicateImage allCommitsState).redoActions = [] ∧
        (resizeSelectedImage allCommitsState (1/2) 0).redoActions = [] ∧
        (rotateSelectedImage allCommitsState 90).redoActions = [] ∧
        (flipImage allCommitsState true).redoActions = [] ∧
        (onMouseUpLine allCommitsState { x := 1, y := 0 }).actions =
          DrawAction.path [{ x := 0, y := 0 }, { x := 1, y := 0 }]
            allCommitsState.currentColor allCommitsState.brushSize false
            :: allCommitsState.actions ∧
        (onMouseUpLine allCommitsState { x := 1, y := 0 }).redoActions =
          allCommitsState.redoActions) :=
  ⟨rfl, Nat.le.refl, List.mem_cons_self 0 [], rfl,
    by norm_num [allCommitsState, baseState, updateStore],
    by norm_num [allCommitsState, baseState, updateStore],
    rfl, rfl,
    commits_clear_redo_except_line allCommitsState { x := 1, y := 0 } 90 (1/2) 0 true 0 0
      { x := 0, y := 0 } rfl Nat.le.refl (List.mem_cons_self 0 []) rfl
      (by norm_num [allCommitsState, baseState, updateStore])
      (by norm_num [allCommitsState, baseState, updateStore]) rfl rfl⟩

/-! ## C7: the path smoother -/

/-- `getLastD` of a non-empty list is a member, whatever the default. -/
theorem getLastD_cons_mem {α : Type} :
    ∀ (l : List α) (a d : α), (a :: l).getLastD d ∈ a :: l
  | [], a, _ => show a ∈ [a] from List.mem_singleton_self a
  | b :: t, a, _ =>
      show (b :: t).getLastD a ∈ a :: b :: t from
        List.mem_cons_of_mem a (getLastD_cons_mem t b a)

/-- `getLast?` of a non-empty list is `getLastD` with the head as default. -/
theorem getLast?_cons_getLastD {α : Type} :
    ∀ (l : List α) (a : α), (a :: l).getLast? = some ((a :: l).getLastD a)
  | [], _ => rfl
  | b :: t, a => by
      have h := getLast?_cons_getLastD t b
      rw [List.getLast?_cons_cons]
      exact h

/-- Each window contributes exactly eleven samples. -/
theorem segmentSamples_length (p0 p1 p2 : Point) :
    (segmentSamples p0 p1 p2).length = 11 := by
  rw [segmentSamples, List.length_map, List.length_range]

/-- The sliding-window loop emits `11 * (length - 2)` samples. -/
theorem smoothSegments_length :
    ∀ l : List Point, (smoothSegments l).length = 11 * (l.length - 2)
  | [] => rfl
  | [_] => rfl
  | [_, _] => rfl
  | p0 :: p1 :: p2 :: rest => by
      have ih := smoothSegments_length (p1 :: p2 :: rest)
      show (segmentSamples p0 p1 p2 ++ smoothSegments (p1 :: p2 :: rest)).length = _
      rw [List.length_append, ih, segmentSamples_length]
      simp only [List.length_cons]
      omega

/-- Every point the sliding-window loop emits is a Bezier sample, at a
parameter `k/10` with `k ≤ 10`, of a window of three consecutive input
points with midpoint control points. -/
theorem mem_smoothSegments :
    ∀ (l : List Point) (q : Point), q ∈ smoothSegments l →
      ∃ (p0 p1 p2 : Point) (l1 l2 : List Point) (k : Nat), l = l1 ++ p0 :: p1 :: p2 :: l2 ∧ k < 11 ∧
        q = quadBezier (ctrlMid p0 p1) p1 (ctrlMid p1 p2) ((k : ℚ) / 10)
  | [], q, h => by simp [smoothSegments] at h
  | [_], q, h => by simp [smoothSegments] at h
  | [_, _], q, h => by simp [smoothSegments] at h
  | p0 :: p1 :: p2 :: rest, q, h => by
      have h' : q ∈ segmentSamples p0 p1 p2 ++ smoothSegments (p1 :: p2 :: rest) := h
      rcases List.mem_append.mp h' with h2 | h2
      · have h3 : q ∈ (List.range 11).map
            (fun (k : Nat) =>
              quadBezier (ctrlMid p0 p1) p1 (ctrlMid p1 p2) ((k : ℚ) / 10)) := h2
        rcases List.mem_map.mp h3 with ⟨k, hk, hq⟩
        have hk11 : k < 11 := List.mem_range.mp hk
        exact ⟨p0, p1, p2, [], rest, k, rfl, hk11, hq.symm⟩
      · rcases mem_smoothSegments (p1 :: p2 :: rest) q h2 with
          ⟨a, b, c, l1, l2, k, hl, hk, hq⟩
        exact ⟨a, b, c, p0 :: l1, l2, k, by rw [List.cons_append, hl], hk, hq⟩

/-- Unfolding `createSmoothPath` on a short input. -/
theorem createSmoothPath_short (pts : List Point) (h : pts.length < 3) :
    createSmoothPath pts = pts := by
  rw [createSmoothPath.eq_def, if_pos h]

/-- Unfolding `createSmoothPath` on an input of length at least 3. -/
theorem createSmoothPath_cons (p : Point) (rest : List Point)
    (h : ¬ (p :: rest).length < 3) :
    createSmoothPath (p :: rest) =
      p :: (smoothSegments (p :: rest) ++ [(p :: rest).getLastD p]) := by
  rw [createSmoothPath.eq_def, if_neg h]

/-- C7: for any input of at least one point, `createSmoothPath` returns the
input unchanged when it has fewer than 3 points; for 3 or more points the
output starts with the first input point, ends with the last input point,
and has length `2 + 11 * (interior count)` — eleven Bezier samples per
interior point; and every output point is either an input point or a
quadratic-Bezier sample, at a parameter `k/10` with `k ≤ 10` (step `0.1`,
both ends included), through a window of three consecutive input points with
midpoint control points.  Determinism is definitional: the embedding is a
pure function of its input, as is the source (it reads no mutable state). -/
theorem createSmoothPath_spec (pts : List Point) (h1 : 1 ≤ pts.length) :
    (pts.length < 3 → createSmoothPath pts = pts) ∧
      (3 ≤ pts.length →
        (createSmoothPath pts).head? = pts.head? ∧
        (createSmoothPath pts).getLast? = pts.getLast? ∧
        (createSmoothPath pts).length = 2 + 11 * (pts.length - 2)) ∧
      (∀ q ∈ createSmoothPath pts, q ∈ pts ∨
        ∃ (p0 p1 p2 : Point) (l1 l2 : List Point) (k : Nat), pts = l1 ++ p0 :: p1 :: p2 :: l2 ∧ k < 11 ∧
          q = quadBezier (ctrlMid p0 p1) p1 (ctrlMid p1 p2) ((k : ℚ) / 10)) := by
  refine ⟨createSmoothPath_short pts, fun h3 => ?_, ?_⟩
  · have hlt : ¬ pts.length < 3 := not_lt.mpr h3
    rcases pts with _ | ⟨p, rest⟩
    · simp at h1
    · rw [createSmoothPath_cons p rest hlt]
      refine ⟨rfl, ?_, ?_⟩
      · rw [← List.cons_append, List.getLast?_concat, getLast?_cons_getLastD rest p]
      · rw [List.length_cons, List.length_append, smoothSegments_length]
        simp only [List.length_cons, List.length_nil]
        omega
  · intro q hq
    by_cases h3 : pts.length < 3
    · rw [createSmoothPath_short pts h3] at hq
      exact Or.inl hq
    · rcases pts with _ | ⟨p, rest⟩
      · simp at h1
      · rw [createSmoothPath_cons p rest h3] at hq
        rcases List.mem_cons.mp hq with hq | hq
        · exact Or.inl (hq ▸ List.mem_cons_self p rest)
        · rcases List.mem_append.mp hq with hq | hq
          · exact Or.inr (mem_smoothSegments (p :: rest) q hq)
          · have hql : q = (p :: rest).getLastD p := by simpa using hq
            exact Or.inl (hql ▸ getLastD_cons_mem rest p p)

/-- C7, witness: the three-point path `(0,0), (1,0), (1,1)` has length 3, so
the smoothing facts apply to it. -/
theorem createSmoothPath_spec_witness :
    1 ≤ ([{ x := 0, y := 0 }, { x := 1, y := 0 }, { x := 1, y := 1 }] :
        List Point).length ∧
      (([{ x := 0, y := 0 }, { x := 1, y := 0 }, { x := 1, y := 1 }] :
            List Point).length < 3 →
        createSmoothPath [{ x := 0, y := 0 }, { x := 1, y := 0 }, { x := 1, y := 1 }] =
          [{ x := 0, y := 0 }, { x := 1, y := 0 }, { x := 1, y := 1 }]) ∧
      (3 ≤ ([{ x := 0, y := 0 }, { x := 1, y := 0 }, { x := 1, y := 1 }] :
            List Point).length →
        (createSmoothPath [{ x := 0, y := 0 }, { x := 1, y := 0 },
            { x := 1, y := 1 }]).head? =
          ([{ x := 0, y := 0 }, { x := 1, y := 0 }, { x := 1, y := 1 }] :
            List Point).head? ∧
        (createSmoothPath [{ x := 0, y := 0 }, { x := 1, y := 0 },
            { x := 1, y := 1 }]).getLast? =
          ([{ x := 0, y := 0 }, { x := 1, y := 0 }, { x := 1, y := 1 }] :
            List Point).getLast? ∧
        (createSmoothPath [{ x := 0, y := 0 }, { x := 1, y := 0 },
            { x := 1, y := 1 }]).length =
          2 + 11 * (([{ x := 0, y := 0 }, { x := 1, y := 0 }, { x := 1, y := 1 }] :
            List Point).length - 2)) ∧
      (∀ q ∈ createSmoothPath [{ x := 0, y := 0 }, { x := 1, y := 0 },
          { x := 1, y := 1 }],
        q ∈ ([{ x := 0, y := 0 }, { x := 1, y := 0 }, { x := 1, y := 1 }] :
            List Point) ∨
        ∃ (p0 p1 p2 : Point) (l1 l2 : List Point) (k : Nat),
          ([{ x := 0, y := 0 }, { x := 1, y := 0 }, { x := 1, y := 1 }] :
              List Point) = l1 ++ p0 :: p1 :: p2 :: l2 ∧ k < 11 ∧
          q = quadBezier (ctrlMid p0 p1) p1 (ctrlMid p1 p2) ((k : ℚ) / 10)) :=
  ⟨by decide,
    (createSmoothPath_spec [{ x := 0, y := 0 }, { x := 1, y := 0 }, { x := 1, y := 1 }]
      (by decide)).1,
    (createSmoothPath_spec [{ x := 0, y := 0 }, { x := 1, y := 0 }, { x := 1, y := 1 }]
      (by decide)).2.1,
    (createSmoothPath_spec [{ x := 0, y := 0 }, { x := 1, y := 0 }, { x := 1, y := 1 }]
      (by decide)).2.2⟩

/-! ## C8: pointer capture at a zero-size viewport -/

/-- A degenerate bounding rect: the viewport has zero width and height. -/
def zeroRect : DOMRect where
  left := 0
  top := 0
  width := 0
  height := 0

/-- C8, evaluation at the failing input: with the canvas present but its rect
of zero width and height, `capturePoint` still pushes a point computed by
dividing by the zero dimensions — the capture is NOT rejected or ignored.
(Here, in exact arithmetic, the stored coordinates are the junk value `0`
of division by zero; in the source's IEEE arithmetic they are `Infinity` /
`NaN`.) -/
theorem capturePoint_zero_viewport_not_rejected :
    zeroRect.width = 0 ∧ zeroRect.height = 0 ∧
      (capturePoint baseState true zeroRect 5 7).currentPath =
        baseState.currentPath ++ [getCanvasCoordinates zeroRect 5 7] ∧
      (capturePoint baseState true zeroRect 5 7).currentPath.length =
        baseState.currentPath.length + 1 :=
  ⟨rfl, rfl, rfl, rfl⟩

/-! ## C5: the snapping engine on the specified inputs -/

/-- `arctan` is nonnegative on nonnegative inputs. -/
theorem arctan_nonneg_of_nonneg (x : ℝ) (hx : 0 ≤ x) : 0 ≤ Real.arctan x := by
  have h := Real.arctan_strictMono.monotone hx
  rwa [Real.arctan_zero] at h

/-- `arctan x ≤ x` for nonnegative `x`. -/
theorem arctan_le_self (x : ℝ) (hx : 0 ≤ x) : Real.arctan x ≤ x := by
  rcases eq_or_lt_of_le hx with h | h
  · rw [← h, Real.arctan_zero]
  · have h1 : 0 < Real.arctan x := by
      have := Real.arctan_strictMono h
      rwa [Real.arctan_zero] at this
    have h3 := Real.lt_tan h1 (Real.arctan_lt_pi_div_two x)
    rw [Real.tan_arctan] at h3
    exact le_of_lt h3

/-- Transfer a tangent bound to an arctangent bound. -/
theorem le_arctan_of_tan_le (c x : ℝ) (hc1 : -(Real.pi / 2) < c)
    (hc2 : c < Real.pi / 2) (h : Real.tan c ≤ x) : c ≤ Real.arctan x := by
  have hm := Real.arctan_strictMono.monotone h
  rwa [Real.arctan_tan hc1 hc2] at hm

/-- `tan 2° ≤ 0.05` (2° in radians is `π/90`): with `sin (π/90) ≤ π/90 <
0.035` and `cos (π/90) ≥ cos (π/4) = √2/2 ≥ 0.7`. -/
theorem tan_pi_div_ninety_le : Real.tan (Real.pi / 90) ≤ 0.05 := by
  have hpi := Real.pi_pos
  have hpos : (0 : ℝ) < Real.pi / 90 := by positivity
  have hcos : Real.cos (Real.pi / 4) ≤ Real.cos (Real.pi / 90) :=
    Real.cos_le_cos_of_nonneg_of_le_pi (by positivity) (by linarith) (by linarith)
  have hsqrt : (1.4 : ℝ) ≤ Real.sqrt 2 := Real.le_sqrt_of_sq_le (by norm_num)
  have hcos7 : (0.7 : ℝ) ≤ Real.cos (Real.pi / 90) := by
    have h4 : Real.cos (Real.pi / 4) = Real.sqrt 2 / 2 := Real.cos_pi_div_four
    linarith
  have hsin : Real.sin (Real.pi / 90) ≤ Real.pi / 90 := Real.sin_le hpos.le
  have hpilt := Real.pi_lt_d2
  rw [Real.tan_eq_sin_div_cos, div_le_iff₀ (by linarith)]
  linarith

/-- `arctan 0.05 ≥ 2°`: the exact fact that makes an angle of
`arctan 20 ≈ 87.14°` fall OUTSIDE the snapping engine's 2° vertical
tolerance. -/
theorem pi_div_ninety_le_arctan : Real.pi / 90 ≤ Real.arctan 0.05 := by
  have hpi := Real.pi_pos
  exact le_arctan_of_tan_le (Real.pi / 90) 0.05 (by linarith) (by linarith)
    tan_pi_div_ninety_le

/-- The degree value `arctan t * 180 / π` is below 90. -/
theorem degOf_lt_ninety (t : ℝ) : Real.arctan t * 180 / Real.pi < 90 := by
  rw [div_lt_iff₀ Real.pi_pos]
  have h := Real.arctan_lt_pi_div_two t
  nlinarith [Real.pi_pos]

/-- The degree value of a nonneg arctangent is nonnegative. -/
theorem degOf_nonneg (t : ℝ) (ht : 0 ≤ t) : 0 ≤ Real.arctan t * 180 / Real.pi :=
  div_nonneg (mul_nonneg (arctan_nonneg_of_nonneg t ht) (by norm_num)) Real.pi_pos.le

/-- The flooring remainder `mod360` on the range the snapping engine
produces: for `0 ≤ v < 360`, `(v + 360) % 360 = v`. -/
theorem mod360_shift (v : ℝ) (h0 : 0 ≤ v) (h1 : v < 360) : mod360 (v + 360) = v := by
  have hfl : ⌊(v + 360) / 360⌋ = 1 := by
    rw [add_div, div_self (by norm_num : (360 : ℝ) ≠ 0), Int.floor_add_one,
      Int.floor_eq_zero_iff.mpr]
    · norm_num
    · exact ⟨div_nonneg h0 (by norm_num),
        by rw [div_lt_one (by norm_num : (0 : ℝ) < 360)]; exact h1⟩
  rw [mod360, hfl]
  push_cast
  ring

/-- Evaluation of the snapping engine from the origin into the open first
quadrant boundary `ex > 0, ey ≥ 0`: the normalised angle is
`arctan (ey/ex) * 180 / π`. -/
theorem getSnappedEndPoint_eval (ex ey : ℝ) (hx : 0 < ex) (hy : 0 ≤ ey) :
    getSnappedEndPoint { x := 0, y := 0 } { x := ex, y := ey } =
      (if (Real.arctan (ey / ex) * 180 / Real.pi < 5 ∨
            |Real.arctan (ey / ex) * 180 / Real.pi - 180| < 5) ∧ |ey| < 0.02 then
        { x := ex, y := 0 }
      else if (|Real.arctan (ey / ex) * 180 / Real.pi - 90| < 2 ∨
            |Real.arctan (ey / ex) * 180 / Real.pi - 270| < 2) ∧ |ex| < 0.02 then
        { x := 0, y := ey }
      else { x := ex, y := ey }) := by
  rw [getSnappedEndPoint]
  dsimp only
  simp only [sub_zero]
  rw [atan2, if_pos hx]
  rw [mod360_shift (Real.arctan (ey / ex) * 180 / Real.pi)
    (degOf_nonneg _ (div_nonneg hy hx.le))
    (lt_trans (degOf_lt_ninety _) (by norm_num))]

/-- C5, counterexample: the spec's second snapping case is wrong on the
code.  For start `(0,0)` and candidate `(0.005, 0.1)` the segment's angle is
`arctan 20 ≈ 87.14°`, which is `2.86°` away from vertical — OUTSIDE the 2°
vertical tolerance — so `getSnappedEndPoint` returns the candidate
unchanged, not the vertically snapped `(0, 0.1)` the claim requires. -/
theorem getSnappedEndPoint_vertical_cex :
    getSnappedEndPoint { x := 0, y := 0 } { x := 0.005, y := 0.1 } =
        { x := 0.005, y := 0.1 } ∧
      getSnappedEndPoint { x := 0, y := 0 } { x := 0.005, y := 0.1 } ≠
        ({ x := 0, y := 0.1 } : RPoint) := by
  have hpi := Real.pi_pos
  have heval := getSnappedEndPoint_eval 0.005 0.1 (by norm_num) (by norm_num)
  have ht : ((0.1 : ℝ) / 0.005) = 20 := by norm_num
  rw [ht] at heval
  -- the angle `D = arctan 20 * 180 / π` satisfies `45 ≤ D ≤ 88`
  have hA2 : Real.arctan 20 ≤ Real.pi / 2 - Real.pi / 90 := by
    have hinv : Real.arctan ((20 : ℝ)⁻¹) = Real.pi / 2 - Real.arctan 20 :=
      Real.arctan_inv_of_pos (by norm_num)
    have h005 : ((20 : ℝ)⁻¹) = 0.05 := by norm_num
    rw [h005] at hinv
    have := pi_div_ninety_le_arctan
    linarith
  have hD88 : Real.arctan 20 * 180 / Real.pi ≤ 88 := by
    rw [div_le_iff₀ Real.pi_pos]
    nlinarith
  have hfirst : ¬ ((Real.arctan 20 * 180 / Real.pi < 5 ∨
      |Real.arctan 20 * 180 / Real.pi - 180| < 5) ∧ |(0.1 : ℝ)| < 0.02) := by
    intro h
    have := h.2
    rw [abs_of_pos (by norm_num : (0 : ℝ) < 0.1)] at this
    norm_num at this
  have hsecond : ¬ ((|Real.arctan 20 * 180 / Real.pi - 90| < 2 ∨
      |Real.arctan 20 * 180 / Real.pi - 270| < 2) ∧ |(0.005 : ℝ)| < 0.02) := by
    intro h
    rcases h.1 with h1 | h1
    · rw [abs_sub_lt_iff] at h1
      linarith [h1.2]
    · rw [abs_sub_lt_iff] at h1
      linarith [h1.2]
  constructor
  · rw [heval, if_neg hfirst, if_neg hsecond]
  · rw [heval, if_neg hfirst, if_neg hsecond]
    intro h
    have := congrArg RPoint.x h
    norm_num at this

/-- C5, amended: the first and third specified snapping cases hold as
stated; the second case's candidate must be within the 2° vertical
tolerance, e.g. `(0.001, 0.1)` (angle `arctan 100 ≈ 89.43°`), which does
snap to `(0, 0.1)`; the spec's candidate `(0.005, 0.1)` is outside the
tolerance and is returned unchanged (see the counterexample). -/
theorem getSnappedEndPoint_cases :
    getSnappedEndPoint { x := 0, y := 0 } { x := 0.1, y := 0.005 } =
        ({ x := 0.1, y := 0 } : RPoint) ∧
      getSnappedEndPoint { x := 0, y := 0 } { x := 0.001, y := 0.1 } =
        ({ x := 0, y := 0.1 } : RPoint) ∧
      getSnappedEndPoint { x := 0, y := 0 } { x := 0.1, y := 0.1 } =
        ({ x := 0.1, y := 0.1 } : RPoint) := by
  have hpi := Real.pi_pos
  have hpi3 := Real.pi_gt_three
  refine ⟨?_, ?_, ?_⟩
  · -- horizontal snap: angle = arctan 0.05 ≈ 2.86° < 5°, |dy| = 0.005 < 0.02
    have heval := getSnappedEndPoint_eval 0.1 0.005 (by norm_num) (by norm_num)
    have ht : ((0.005 : ℝ) / 0.1) = 0.05 := by norm_num
    rw [ht] at heval
    have harc : Real.arctan 0.05 ≤ 0.05 := arctan_le_self 0.05 (by norm_num)
    have hD5 : Real.arctan 0.05 * 180 / Real.pi < 5 := by
      rw [div_lt_iff₀ Real.pi_pos]
      nlinarith
    rw [heval, if_pos ⟨Or.inl hD5,
      by rw [abs_of_pos (by norm_num : (0 : ℝ) < 0.005)]; norm_num⟩]
  · -- vertical snap: angle = arctan 100, within 2° of 90°, |dx| = 0.001 < 0.02
    have heval := getSnappedEndPoint_eval 0.001 0.1 (by norm_num) (by norm_num)
    have ht : ((0.1 : ℝ) / 0.001) = 100 := by norm_num
    rw [ht] at heval
    have hA : Real.pi / 2 - 0.01 ≤ Real.arctan 100 := by
      have hinv : Real.arctan ((100 : ℝ)⁻¹) = Real.pi / 2 - Real.arctan 100 :=
        Real.arctan_inv_of_pos (by norm_num)
      have h001 : ((100 : ℝ)⁻¹) = 0.01 := by norm_num
      rw [h001] at hinv
      have := arctan_le_self 0.01 (by norm_num)
      linarith
    have hD : 88 < Real.arctan 100 * 180 / Real.pi := by
      rw [lt_div_iff₀ Real.pi_pos]
      nlinarith
    have hfirst : ¬ ((Real.arctan 100 * 180 / Real.pi < 5 ∨
        |Real.arctan 100 * 180 / Real.pi - 180| < 5) ∧ |(0.1 : ℝ)| < 0.02) := by
      intro h
      have := h.2
      rw [abs_of_pos (by norm_num : (0 : ℝ) < 0.1)] at this
      norm_num at this
    have hsecond : |Real.arctan 100 * 180 / Real.pi - 90| < 2 := by
      rw [abs_sub_lt_iff]
      constructor
      · linarith [degOf_lt_ninety (100 : ℝ)]
      · linarith
    rw [heval, if_neg hfirst, if_pos ⟨Or.inl hsecond,
      by rw [abs_of_pos (by norm_num : (0 : ℝ) < 0.001)]; norm_num⟩]
  · -- 45°: both distance guards fail (|dy| = |dx| = 0.1 ≥ 0.02)
    have heval := getSnappedEndPoint_eval 0.1 0.1 (by norm_num) (by norm_num)
    have hfirst : ¬ ((Real.arctan ((0.1 : ℝ) / 0.1) * 180 / Real.pi < 5 ∨
        |Real.arctan ((0.1 : ℝ) / 0.1) * 180 / Real.pi - 180| < 5) ∧
          |(0.1 : ℝ)| < 0.02) := by
      intro h
      have := h.2
      rw [abs_of_pos (by norm_num : (0 : ℝ) < 0.1)] at this
      norm_num at this
    have hsecond : ¬ ((|Real.arctan ((0.1 : ℝ) / 0.1) * 180 / Real.pi - 90| < 2 ∨
        |Real.arctan ((0.1 : ℝ) / 0.1) * 180 / Real.pi - 270| < 2) ∧
          |(0.1 : ℝ)| < 0.02) := by
      intro h
      have := h.2
      rw [abs_of_pos (by norm_num : (0 : ℝ) < 0.1)] at this
      norm_num at this
    rw [heval, if_neg hfirst, if_neg hsecond]

/-! ## C9: handle hit-region geometry -/

/-- Inverse rotation by a zero angle is the identity. -/
theorem rotatedCoords_zero (cx cy px py : ℝ) :
    rotatedCoords cx cy 0 px py = (px, py) := by
  rw [rotatedCoords, show -(0 : ℝ) * Real.pi / 180 = 0 by ring, Real.cos_zero,
    Real.sin_zero, Prod.mk.injEq]
  constructor <;> ring

/-- An unrotated 50×50 overlay at the origin on a 100×100 canvas. -/
def img50 : RImage where
  x := 0
  y := 0
  width := 50
  height := 50
  rotation := 0

/-- C9, counterexample: the resize-handle region is NOT a square 16 device
pixels on a side.  On a 100×100 canvas with an unrotated 50×50 overlay at
the origin (bottom-right corner at unit `(0.5, 0.5)`), the pointer positions
`(0.35, 0.5)` and `(0.65, 0.5)` BOTH hit the resize handle, yet they are 30
device pixels apart — impossible for a region that fits in a 16-pixel-wide
square.  (The region is `±16px` around the corner, i.e. 32px on a side.) -/
theorem resize_handle_not_sixteen_square_cex :
    isResizeHandle 0.35 0.5 img50 100 100 ∧
      isResizeHandle 0.65 0.5 img50 100 100 ∧
      ((0.65 : ℝ) - 0.35) * 100 > 16 := by
  refine ⟨?_, ?_, by norm_num⟩ <;>
    · rw [isResizeHandle]
      dsimp only [img50]
      rw [rotatedCoords_zero]
      norm_num

/-- C9, amended: each of the three handle hit-regions, tested in the
overlay's unrotated frame, is the axis-aligned square CENTERED at its corner
(resize: bottom-right; rotate: top-right; delete: top-left) with HALF-side
equal to the handle size in device pixels — 16px for resize/delete and 30px
for rotate — converted to unit fractions of the viewport; that is, squares
of side 32, 60 and 32 device pixels respectively, not 16/30/16. -/
theorem handle_regions_are_centered_squares (x y : ℝ) (img : RImage) (cw ch : ℝ) :
    (isResizeHandle x y img cw ch ↔
      |(rotatedCoords ((img.x + img.width / 2) / cw) ((img.y + img.height / 2) / ch)
          img.rotation x y).1 - (img.x + img.width) / cw| ≤ 16 / cw ∧
        |(rotatedCoords ((img.x + img.width / 2) / cw) ((img.y + img.height / 2) / ch)
          img.rotation x y).2 - (img.y + img.height) / ch| ≤ 16 / ch) ∧
      (isRotateHandle x y img cw ch ↔
        |(rotatedCoords ((img.x + img.width / 2) / cw) ((img.y + img.height / 2) / ch)
            img.rotation x y).1 - (img.x + img.width) / cw| ≤ 30 / cw ∧
          |(rotatedCoords ((img.x + img.width / 2) / cw) ((img.y + img.height / 2) / ch)
            img.rotation x y).2 - img.y / ch| ≤ 30 / ch) ∧
      (isDeleteHandle x y img cw ch ↔
        |(rotatedCoords ((img.x + img.width / 2) / cw) ((img.y + img.height / 2) / ch)
            img.rotation x y).1 - img.x / cw| ≤ 16 / cw ∧
          |(rotatedCoords ((img.x + img.width / 2) / cw) ((img.y + img.height / 2) / ch)
            img.rotation x y).2 - img.y / ch| ≤ 16 / ch) := by
  refine ⟨?_, ?_, ?_⟩
  · rw [isResizeHandle]
    rw [abs_sub_le_iff, abs_sub_le_iff]
    constructor
    · rintro ⟨h1, h2, h3, h4⟩
      exact ⟨⟨by linarith, by linarith⟩, by linarith, by linarith⟩
    · rintro ⟨⟨h1, h2⟩, h3, h4⟩
      exact ⟨by linarith, by linarith, by linarith, by linarith⟩
  · rw [isRotateHandle]
    rw [abs_sub_le_iff, abs_sub_le_iff]
    constructor
    · rintro ⟨h1, h2, h3, h4⟩
      exact ⟨⟨by linarith, by linarith⟩, by linarith, by linarith⟩
    · rintro ⟨⟨h1, h2⟩, h3, h4⟩
      exact ⟨by linarith, by linarith, by linarith, by linarith⟩
  · rw [isDeleteHandle]
    rw [abs_sub_le_iff, abs_sub_le_iff]
    constructor
    · rintro ⟨h1, h2, h3, h4⟩
      exact ⟨⟨by linarith, by linarith⟩, by linarith, by linarith⟩
    · rintro ⟨⟨h1, h2⟩, h3, h4⟩
      exact ⟨by linarith, by linarith, by linarith, by linarith⟩

end DrawingApp
